import Mathlib

/-! # Verification of the reconciliation and integrity engine

Shallow embedding of `src/data_handler.py`, `src/web_client.py` and their
call sites in `src/main.py` from the verra-relo repository.

A pandas DataFrame of string-typed cells (the engine reads every file with
`dtype=str` and fills missing cells with the empty string) is modelled as a
list of column names together with rows of positionally aligned string
values.  The engine's file I/O is modelled by passing the relevant on-disk
state explicitly and recording the frames handed to each writer. -/

namespace VerraRelo

/-- A DataFrame whose cells are strings: `cols` are the column names, each
row holds one cell per column, positionally aligned with `cols`. -/
@[ext]
structure DF where
  cols : List String
  rows : List (List String)
deriving DecidableEq, Repr

/-- Pandas `df.empty`: the frame has no rows or no columns. -/
def DF.empty (df : DF) : Bool := df.rows.isEmpty || df.cols.isEmpty

/-- The cell of row `r` at column position `i`; a missing cell reads as the
empty string, matching the engine's `fillna('')` normalisation. -/
def cellAt (r : List String) (i : Nat) : String := r.getD i ""

/-- Column selection `df[c]` as the list of that column's values. -/
def DF.getCol (df : DF) (c : String) : List String :=
  df.rows.map (fun r => cellAt r (df.cols.indexOf c))

/-- Pandas `df.drop(c, axis=1)`; a no-op when the column is absent. -/
def DF.dropCol (df : DF) (c : String) : DF :=
  if df.cols.contains c then
    ⟨df.cols.eraseIdx (df.cols.indexOf c),
     df.rows.map (fun r => r.eraseIdx (df.cols.indexOf c))⟩
  else df

/-- Pandas column assignment `df[c] = series` where the series is computed
row-wise by `f`: replaces the column when present, otherwise appends it on
the right. -/
def DF.setColBy (df : DF) (c : String) (f : List String → String) : DF :=
  if df.cols.contains c then
    ⟨df.cols, df.rows.map (fun r => r.set (df.cols.indexOf c) (f r))⟩
  else
    ⟨df.cols ++ [c], df.rows.map (fun r => r ++ [f r])⟩

/-- Lexicographic comparison of strings by code point (Python's `<=` on
`str`, the order pandas sorts string columns by). -/
def charListLe : List Char → List Char → Bool
  | [], _ => true
  | _ :: _, [] => false
  | c1 :: t1, c2 :: t2 =>
    if c1.toNat < c2.toNat then true
    else if c2.toNat < c1.toNat then false
    else charListLe t1 t2

/-- String comparison used for sorting. -/
def pyStrLe (s t : String) : Bool := charListLe s.toList t.toList

/-- Stable insertion of a row into a row list sorted by `le`. -/
def insertRow (le : List String → List String → Bool) (x : List String) :
    List (List String) → List (List String)
  | [] => [x]
  | y :: ys => if le x y then x :: y :: ys else y :: insertRow le x ys

/-- Stable sort of rows by `le`. -/
def sortRows (le : List String → List String → Bool) :
    List (List String) → List (List String)
  | [] => []
  | x :: xs => insertRow le x (sortRows le xs)

/-- Pandas `df.sort_values(by=c).reset_index(drop=True)`: rows ordered by
the string value in column `c`.  (`sort_values` uses an unstable quicksort;
the model's stable sort agrees with it whenever the sort keys are distinct,
which the engine's unique-key invariant guarantees.) -/
def DF.sortByCol (df : DF) (c : String) : DF :=
  ⟨df.cols,
   sortRows (fun r1 r2 =>
     pyStrLe (cellAt r1 (df.cols.indexOf c)) (cellAt r2 (df.cols.indexOf c))) df.rows⟩

/-- Boolean-mask row filtering `df[mask]` with the original row order. -/
def DF.filterRows (df : DF) (p : List String → Bool) : DF :=
  ⟨df.cols, df.rows.filter p⟩

/-- Re-align a row from a frame with columns `src` onto the column list
`tgt`; a column absent from `src` reads as empty (pandas fills `NaN`
there, which the engine later normalises to the empty string). -/
def alignRow (src : List String) (r : List String) (tgt : List String) : List String :=
  tgt.map (fun c => if src.contains c then cellAt r (src.indexOf c) else "")

/-- Pandas `pd.concat([d1, d2], ignore_index=True)`: the union of the two
column lists (`d1`'s first), rows re-aligned by column name. -/
def DF.concat (d1 d2 : DF) : DF :=
  let cols := d1.cols ++ d2.cols.filter (fun c => !d1.cols.contains c)
  ⟨cols, d1.rows.map (fun r => alignRow d1.cols r cols) ++
         d2.rows.map (fun r => alignRow d2.cols r cols)⟩

/-- Well-formed frame: every row has exactly one cell per column. -/
def DF.WF (df : DF) : Prop := ∀ r ∈ df.rows, r.length = df.cols.length

/-! ## Second-column text normalisation (§4.5 helpers) -/

/-- Python `str.endswith`, character-wise. -/
def pyEndsWith (s suffix : String) : Bool := suffix.toList.isSuffixOf s.toList

/-- Drop of a trailing `".0"`, shared by both normalisation helpers
(`if str_val.endswith('.0'): str_val = str_val[:-2]`); the slice `[:-2]`
removes the last two characters. -/
def stripDotZero (s : String) : String :=
  if pyEndsWith s ".0" then String.mk s.toList.dropLast.dropLast else s

/-- Python `str.isdigit`, restricted to ASCII digits. -/
def pyIsDigit (s : String) : Bool := !s.toList.isEmpty && s.toList.all Char.isDigit

/-- Python `str.zfill n`: left-pad with zeros to length `n`. -/
def zfill (n : Nat) (s : String) : String :=
  if s.length < n then String.mk (List.replicate (n - s.length) '0' ++ s.toList) else s

/-- Python `str.strip()`: remove leading and trailing whitespace. -/
def pyStrip (s : String) : String :=
  String.mk (((s.toList.dropWhile Char.isWhitespace).reverse.dropWhile
    Char.isWhitespace).reverse)

/-- `DataHandler._format_second_column_value` (data_handler.py:240-248):
empty/`"nan"` become empty, a trailing `".0"` is stripped.  No padding. -/
def formatSecondColumnValue (v : String) : String :=
  if v = "" || v = "nan" then "" else stripDotZero v

/-- `format_kvk_number` (web_client.py:163-174), applied by the web client
to every value of the second extracted column: strips a trailing `".0"`,
left-pads purely numeric values shorter than 8 digits to 8 digits, and
strips surrounding whitespace. -/
def format_kvk_number (v : String) : String :=
  if v = "" || v = "nan" then ""
  else
    let s := stripDotZero v
    let s := if pyIsDigit s && s.length < 8 then zfill 8 s else s
    pyStrip s

/-- `DataHandler._format_dataframe_for_csv` on string frames: `fillna('')`
and `astype(str)` are the identity on string cells, and the second column
(position 1) is normalised by the helper. -/
def formatDataframeForCsv (df : DF) : DF :=
  if df.cols.length ≥ 2 then
    ⟨df.cols, df.rows.map (fun r => r.set 1 (formatSecondColumnValue (cellAt r 1)))⟩
  else df

/-- `DataHandler._format_dataframe_for_excel`: the same second-column
normalisation, applied before the artifact is written. -/
def formatDataframeForExcel (df : DF) : DF :=
  if df.cols.length ≥ 2 then
    ⟨df.cols, df.rows.map (fun r => r.set 1 (formatSecondColumnValue (cellAt r 1)))⟩
  else df

/-! ## Metadata registry, checksums and tamper detection -/

/-- One registry entry, `metadata[excel_filename]` as written by
`_update_file_metadata` (data_handler.py:297-301). -/
structure MetaEntry where
  checksum : String
  lastUpdated : String
  sheetNames : List String
deriving DecidableEq, Repr

/-- The registry mapping: file name to entry (a JSON object, keys unique). -/
abbrev Metadata := List (String × MetaEntry)

/-- `DataHandler._load_metadata` (49-57): an absent or unparsable registry
file is downgraded to the empty registry.  `parse` stands for `json.load`. -/
def loadMetadata (parse : String → Option Metadata) (file : Option String) : Metadata :=
  match file with
  | none => []
  | some s =>
    match parse s with
    | some m => m
    | none => []

/-- Fault scenarios for `_save_metadata`'s `open(self.metadata_file, 'w')`
followed by `json.dump`: opening with mode `w` truncates the file in place,
so an exception raised while dumping leaves only the flushed prefix
(`failWrite written`), while a failure to open leaves the file untouched. -/
inductive SaveFault where
  | ok : SaveFault
  | failOpen : SaveFault
  | failWrite (written : String) : SaveFault
deriving DecidableEq, Repr

/-- `DataHandler._save_metadata` (59-65): returns the new on-disk content
of the registry file and whether an exception reached the caller.  The
`except` clause logs and swallows every failure, so the second component
is always `false`. -/
def saveMetadata (serialized : String) (fault : SaveFault) (prev : Option String) :
    Option String × Bool :=
  match fault with
  | .ok => (some serialized, false)
  | .failOpen => (prev, false)
  | .failWrite written => (some written, false)

/-- `DataHandler._calculate_file_checksum` (67-80): the sentinel for a
missing file is the empty digest; `md5` stands for the content hash over
the file bytes. -/
def calculateFileChecksum (md5 : String → String) : Option String → String
  | none => ""
  | some bytes => md5 bytes

/-- Python dict update `metadata[k] = v`: replace in place or append. -/
def dictInsert (m : Metadata) (k : String) (v : MetaEntry) : Metadata :=
  if m.any (fun p => p.fst == k) then
    m.map (fun p => if p.fst == k then (k, v) else p)
  else m ++ [(k, v)]

/-- Python dict lookup `metadata.get(k)` (also `k in metadata`). -/
def dictFind (m : Metadata) (k : String) : Option MetaEntry :=
  (m.find? (fun p => p.fst == k)).map Prod.snd

/-- `DataHandler._update_file_metadata` (291-302): hash the artifact bytes
currently on disk, merge the entry under the file's name with the current
timestamp, and save the whole registry.  `serialize` stands for
`json.dump`'s rendering of the mapping. -/
def updateFileMetadata (md5 : String → String) (parse : String → Option Metadata)
    (serialize : Metadata → String) (artifact : Option String)
    (metadataFile : Option String) (filename now : String)
    (sheetNames : List String) (fault : SaveFault) : Option String × Bool :=
  let checksum := calculateFileChecksum md5 artifact
  let metadata := loadMetadata parse metadataFile
  let updated := dictInsert metadata filename ⟨checksum, now, sheetNames⟩
  saveMetadata (serialize updated) fault metadataFile

/-- `DataHandler._is_excel_manipulated` (268-289): false when the artifact
file does not exist or the registry has no entry for it; otherwise compare
the current digest with the stored one. -/
def isExcelManipulated (md5 : String → String) (parse : String → Option Metadata)
    (artifact : Option String) (metadataFile : Option String)
    (filename : String) : Bool :=
  match artifact with
  | none => false
  | some _ =>
    match dictFind (loadMetadata parse metadataFile) filename with
    | none => false
    | some entry => calculateFileChecksum md5 artifact != entry.checksum

/-! ## The reconciliation engine -/

/-- `DataHandler._add_created_date_column` (447-451): stamp every row with
today's date (scalar column assignment). -/
def addCreatedDateColumn (today : String) (df : DF) : DF :=
  df.setColBy "created_date" (fun _ => today)

/-- `DataHandler._dataframes_are_equal` (82-126): equality of two frames
ignoring `created_date`, after sorting both by the unique column; requires
the same shape (row count and column count) and, for every column of the
first frame also present in the second, identical string value sequences. -/
def dataframesAreEqual (d1 d2 : DF) (uniqueCol : String) : Bool :=
  if d1.empty && d2.empty then true
  else if d1.empty || d2.empty then false
  else
    let c1 := d1.dropCol "created_date"
    let c2 := d2.dropCol "created_date"
    if !(c1.cols.contains uniqueCol) || !(c2.cols.contains uniqueCol) then false
    else
      let s1 := c1.sortByCol uniqueCol
      let s2 := c2.sortByCol uniqueCol
      if s1.rows.length != s2.rows.length || s1.cols.length != s2.cols.length then false
      else s1.cols.all (fun col => !(s2.cols.contains col) || s1.getCol col == s2.getCol col)

/-- `DataHandler._detect_data_changes` (174-202): drop `created_date` from
both frames, then negate `_dataframes_are_equal`. -/
def detectDataChanges (newData csvBackup : DF) (uniqueCol : String) : Bool :=
  !(dataframesAreEqual (newData.dropCol "created_date") (csvBackup.dropCol "created_date")
      uniqueCol)

/-- `DataHandler._find_new_rows` (453-458): the rows of `newDf` whose value
in `uniqueCol` does not occur in that column of `existingDf`, in their
original order. -/
def findNewRows (newDf existingDf : DF) (uniqueCol : String) : DF :=
  let existingValues := if existingDf.empty then [] else existingDf.getCol uniqueCol
  newDf.filterRows (fun r => !existingValues.contains (cellAt r (newDf.cols.indexOf uniqueCol)))

/-- The key-to-value dictionary built by
`existing.set_index(unique_col)[custom_col].to_dict()`: on duplicate keys
the later row wins, as in a Python dict comprehension. -/
def colMapping (existing : DF) (uniqueCol customCol : String) (k : String) : Option String :=
  (((existing.getCol uniqueCol).zip (existing.getCol customCol)).reverse.find?
      (fun p => p.fst == k)).map Prod.snd

/-- `DataHandler._preserve_custom_columns` (128-172).  Python iterates the
set `custom_cols` in an unspecified order; the model fixes the artifact's
column order, which changes no per-column value. -/
def preserveCustomColumns (newData existing : DF) : DF :=
  if existing.empty then newData
  else
    let customCols := existing.cols.filter (fun c => !newData.cols.contains c)
    if customCols.isEmpty then newData
    else
      let uniqueCol := newData.cols.headD ""
      let withEmpty := customCols.foldl (fun df c => df.setColBy c (fun _ => "")) newData
      if existing.cols.contains uniqueCol then
        customCols.foldl
          (fun df c =>
            df.setColBy c (fun r =>
              (colMapping existing uniqueCol c (cellAt r (df.cols.indexOf uniqueCol))).getD ""))
          withEmpty
      else withEmpty

/-- Lines 546-555 of `write_excel_incremental`: make sure the loaded backup
has a `created_date` column, converting a legacy `modified_time` column via
the pandas date conversion (modelled by the external `convertTime`), else
stamping today's date. -/
def ensureCreatedDate (convertTime : String → String) (today : String) (cb : DF) : DF :=
  if cb.cols.contains "created_date" then cb
  else if cb.cols.contains "modified_time" then
    (cb.setColBy "created_date"
        (fun r => convertTime (cellAt r (cb.cols.indexOf "modified_time")))).dropCol
      "modified_time"
  else cb.setColBy "created_date" (fun _ => today)

/-- Observable outcome of one `write_excel_incremental` call: the tuple it
returns, plus the frame handed to the snapshot store (`_create_csv_backup`,
which persists `formatDataframeForCsv` of it; `none` when the backup file
is not rewritten) and the frame handed to the artifact writer
(`_write_excel_direct`, which persists `formatDataframeForExcel` of it). -/
structure WriteResult where
  filepath : String
  totalRows : Nat
  newRowsCount : Nat
  savedBackup : Option DF
  excelWritten : DF
deriving DecidableEq, Repr

/-- The triple actually returned to the caller (data_handler.py:625). -/
def WriteResult.ret (r : WriteResult) : String × Nat × Nat :=
  (r.filepath, r.totalRows, r.newRowsCount)

/-- `DataHandler.write_excel_incremental` (498-629) as an explicit-state
function.  `csvBackup` is the snapshot loaded by `_load_csv_backup`
(`none` when the backup file is absent or unreadable), `excelManipulated`
the result of the `_is_excel_manipulated` tamper check, and
`currentExcelData` the artifact sheet's contents when the file is readable
(`none` otherwise).  A Python exception escaping the body (`ValueError`
from `_get_unique_column_name`, `KeyError` from `_find_new_rows`) becomes
an `Except.error`.  File paths are identified with file names. -/
def writeExcelIncremental (convertTime : String → String) (today : String)
    (dataframe : DF) (filename : String) (csvBackup : Option DF)
    (excelManipulated : Bool) (currentExcelData : Option DF) :
    Except String WriteResult :=
  match dataframe.cols.head? with
  | none => .error "DataFrame must have at least 1 column to use first column as unique identifier"
  | some uniqueCol =>
    let newData := addCreatedDateColumn today dataframe
    -- line 536: the artifact is only read when the tamper check fired
    let excelData := if excelManipulated then currentExcelData else none
    match csvBackup with
    | some cb0 =>
      if !cb0.empty then
        let cb := ensureCreatedDate convertTime today cb0
        let changed := detectDataChanges newData cb uniqueCol
        if changed then
          -- `_find_new_rows` evaluates `existing_df[unique_col]`
          if !cb.cols.contains uniqueCol then .error "KeyError"
          else
            let newRows := findNewRows newData cb uniqueCol
            let updated :=
              if newRows.rows.length > 0 then DF.concat cb newRows
              else addCreatedDateColumn today newData
            let newRowsCount :=
              if newRows.rows.length > 0 then newRows.rows.length else 0
            let finalData :=
              match excelData with
              | some e => preserveCustomColumns updated e
              | none => updated
            .ok ⟨filename, finalData.rows.length, newRowsCount, some updated, finalData⟩
        else
          let finalData :=
            match excelData with
            | some e => preserveCustomColumns cb e
            | none => cb
          .ok ⟨filename, finalData.rows.length, 0, none, finalData⟩
      else
        .ok ⟨filename, newData.rows.length, newData.rows.length, some newData, newData⟩
    | none =>
      .ok ⟨filename, newData.rows.length, newData.rows.length, some newData, newData⟩

/-- The spec's change-detection equality exactly as worded (§4.4 step 3,
claim C4): ignoring the `created_date` column and after sorting both
sequences by the unique-key column, same row count and, for every shared
column, identical sequences of string values.  Unlike the code's
`_dataframes_are_equal`, this wording has no column-count requirement. -/
def specEqual (d1 d2 : DF) (uniqueCol : String) : Bool :=
  let s1 := (d1.dropCol "created_date").sortByCol uniqueCol
  let s2 := (d2.dropCol "created_date").sortByCol uniqueCol
  s1.rows.length == s2.rows.length &&
    s1.cols.all (fun col => !(s2.cols.contains col) || s1.getCol col == s2.getCol col)

/-- The spec's equality strengthened by the code's shape check: also the
same number of columns after dropping `created_date`. -/
def specEqualShape (d1 d2 : DF) (uniqueCol : String) : Bool :=
  specEqual d1 d2 uniqueCol &&
    (d1.dropCol "created_date").cols.length == (d2.dropCol "created_date").cols.length

/-! ## Theorems -/

section Lemmas

theorem contains_eq_false {l : List String} {a : String} (h : a ∉ l) :
    l.contains a = false := by
  cases hc : l.contains a
  · rfl
  · exact absurd (List.elem_iff.mp hc) h

theorem contains_eq_true {l : List String} {a : String} (h : a ∈ l) :
    l.contains a = true := List.elem_iff.mpr h

theorem insertRow_length (le : List String → List String → Bool) (x : List String)
    (l : List (List String)) : (insertRow le x l).length = l.length + 1 := by
  induction l with
  | nil => rfl
  | cons y ys ih =>
    unfold insertRow
    by_cases h : le x y = true
    · simp [h]
    · simp [h, ih]

theorem sortRows_length (le : List String → List String → Bool)
    (l : List (List String)) : (sortRows le l).length = l.length := by
  induction l with
  | nil => rfl
  | cons x xs ih =>
    unfold sortRows
    rw [insertRow_length, ih]
    rfl

theorem eraseIdx_append_len {α : Type} (l : List α) (x : α) :
    (l ++ [x]).eraseIdx l.length = l := by
  induction l with
  | nil => rfl
  | cons a as ih => simp [ih]

theorem set_append_len {α : Type} (l : List α) (x y : α) :
    (l ++ [x]).set l.length y = l ++ [y] := by
  induction l with
  | nil => rfl
  | cons a as ih => simp [ih]

theorem dropCol_of_not_mem (df : DF) (c : String) (h : c ∉ df.cols) :
    df.dropCol c = df := by
  unfold DF.dropCol
  rw [if_neg]
  intro hc
  exact h (List.elem_iff.mp hc)

theorem addCreatedDate_of_not_mem (today : String) (df : DF)
    (h : "created_date" ∉ df.cols) :
    addCreatedDateColumn today df =
      ⟨df.cols ++ ["created_date"], df.rows.map (fun r => r ++ [today])⟩ := by
  unfold addCreatedDateColumn DF.setColBy
  rw [if_neg]
  intro hc
  exact h (List.elem_iff.mp hc)

theorem addCreatedDate_dropCol (today : String) (df : DF)
    (h : "created_date" ∉ df.cols) (hwf : df.WF) :
    (addCreatedDateColumn today df).dropCol "created_date" = df := by
  rw [addCreatedDate_of_not_mem today df h]
  unfold DF.dropCol
  rw [if_pos (contains_eq_true (by simp))]
  have hidx : List.indexOf "created_date" (df.cols ++ ["created_date"]) = df.cols.length := by
    rw [List.indexOf_append_of_not_mem h]
    simp
  ext1
  · simp only [hidx]
    exact eraseIdx_append_len df.cols "created_date"
  · simp only [hidx, List.map_map]
    rw [List.map_congr_left (fun r hr => ?_), List.map_id]
    have : r.length = df.cols.length := hwf r hr
    simpa [this.symm] using eraseIdx_append_len r today

theorem setColBy_rows_length (df : DF) (c : String) (f : List String → String) :
    (df.setColBy c f).rows.length = df.rows.length := by
  unfold DF.setColBy
  split <;> simp

theorem foldl_setColBy_rows_length (g : DF → String → DF)
    (hg : ∀ df c, (g df c).rows.length = df.rows.length) :
    ∀ (cs : List String) (df : DF), (cs.foldl g df).rows.length = df.rows.length := by
  intro cs
  induction cs with
  | nil => intro df; rfl
  | cons c cs ih => intro df; rw [List.foldl_cons, ih, hg]

theorem preserve_rows_length (n e : DF) :
    (preserveCustomColumns n e).rows.length = n.rows.length := by
  simp only [preserveCustomColumns]
  split
  · rfl
  · split
    · rfl
    · split
      · rw [foldl_setColBy_rows_length _ (fun df c => setColBy_rows_length df c _),
          foldl_setColBy_rows_length _ (fun df c => setColBy_rows_length df c _)]
      · rw [foldl_setColBy_rows_length _ (fun df c => setColBy_rows_length df c _)]

theorem ensureCreatedDate_of_mem (convertTime : String → String) (today : String)
    (cb : DF) (h : "created_date" ∈ cb.cols) :
    ensureCreatedDate convertTime today cb = cb := by
  unfold ensureCreatedDate
  rw [if_pos (contains_eq_true h)]

/-- `addCreatedDateColumn` stamps an already-stamped frame unchanged. -/
theorem addCreatedDate_idem (today : String) (df : DF)
    (h : "created_date" ∉ df.cols) (hwf : df.WF) :
    addCreatedDateColumn today (addCreatedDateColumn today df) =
      addCreatedDateColumn today df := by
  rw [addCreatedDate_of_not_mem today df h]
  unfold addCreatedDateColumn DF.setColBy
  rw [if_pos (contains_eq_true (by simp))]
  have hidx : List.indexOf "created_date" (df.cols ++ ["created_date"]) = df.cols.length := by
    rw [List.indexOf_append_of_not_mem h]
    simp
  ext1
  · rfl
  · simp only [hidx, List.map_map]
    apply List.map_congr_left
    intro r hr
    have hl : r.length = df.cols.length := hwf r hr
    simp only [Function.comp]
    rw [← hl, set_append_len]

end Lemmas

/-- C1: Flow A (bootstrap).  When no CSV backup exists for the (file,
sheet) pair, every fetched row is stamped with today's date in a
`created_date` column, exactly the stamped fetched rows are handed to the
snapshot store as the new snapshot (and to the artifact writer), and both
`total_rows` and `new_rows_count` equal the number of fetched rows. -/
theorem c1_bootstrap (convertTime : String → String) (today filename : String)
    (dataframe : DF) (manip : Bool) (excel : Option DF)
    (hcols : dataframe.cols ≠ []) (_hrows : dataframe.rows ≠ [])
    (hcd : "created_date" ∉ dataframe.cols) :
    writeExcelIncremental convertTime today dataframe filename none manip excel =
      Except.ok ⟨filename, dataframe.rows.length, dataframe.rows.length,
        some ⟨dataframe.cols ++ ["created_date"],
          dataframe.rows.map (fun r => r ++ [today])⟩,
        ⟨dataframe.cols ++ ["created_date"],
          dataframe.rows.map (fun r => r ++ [today])⟩⟩ := by
  obtain ⟨u, us, hu⟩ := List.exists_cons_of_ne_nil hcols
  unfold writeExcelIncremental
  rw [hu, addCreatedDate_of_not_mem today dataframe hcd, hu]
  simp [List.head?]

/-- C1 witness: the spec's §8 bootstrap example evaluated concretely. -/
theorem c1_bootstrap_witness :
    writeExcelIncremental (fun s => s) "2025-10-12"
        ⟨["id", "name"], [["001", "Alice"], ["002", "Bob"]]⟩ "acme.xlsx" none false none =
      Except.ok ⟨"acme.xlsx", 2, 2,
        some ⟨["id", "name", "created_date"],
          [["001", "Alice", "2025-10-12"], ["002", "Bob", "2025-10-12"]]⟩,
        ⟨["id", "name", "created_date"],
          [["001", "Alice", "2025-10-12"], ["002", "Bob", "2025-10-12"]]⟩⟩ :=
  c1_bootstrap (fun s => s) "2025-10-12" "acme.xlsx"
    ⟨["id", "name"], [["001", "Alice"], ["002", "Bob"]]⟩ false none
    (by decide) (by decide) (by decide)

/-- C5 (code bug, evaluated): on the spec's bootstrap example the engine
returns only the triple (filepath, total_rows, new_rows_count); the result
carries no new-rows subset for the four-way unpacking at src/main.py:81. -/
theorem c5_returns_triple_only :
    (writeExcelIncremental (fun s => s) "2025-10-12"
        ⟨["id", "name"], [["001", "Alice"], ["002", "Bob"]]⟩ "acme.xlsx" none false
        none).map WriteResult.ret = Except.ok ("acme.xlsx", 2, 2) := by
  rfl

/-- C4 counterexample: the fetched frame drops the `name` column but keeps
the only key.  Under the spec's worded equality (ignore `created_date`,
sort by key: same row count and every shared column identical) the fetch
equals the snapshot, yet the engine's comparison also requires equal
column counts, so it detects a change, takes the no-new-keys merge branch
and hands the snapshot store a frame different from the snapshot — the
snapshot is not left unchanged. -/
theorem c4_counterexample :
    specEqual (addCreatedDateColumn "2025-10-12" ⟨["id"], [["1"]]⟩)
        ⟨["id", "name", "created_date"], [["1", "a", "2024-01-01"]]⟩ "id" = true ∧
    writeExcelIncremental (fun s => s) "2025-10-12" ⟨["id"], [["1"]]⟩ "x.xlsx"
        (some ⟨["id", "name", "created_date"], [["1", "a", "2024-01-01"]]⟩) false none =
      Except.ok ⟨"x.xlsx", 1, 0, some ⟨["id", "created_date"], [["1", "2025-10-12"]]⟩,
        ⟨["id", "created_date"], [["1", "2025-10-12"]]⟩⟩ ∧
    (⟨["id", "created_date"], [["1", "2025-10-12"]]⟩ : DF) ≠
      ⟨["id", "name", "created_date"], [["1", "a", "2024-01-01"]]⟩ := by
  refine ⟨by decide, by rfl, by decide⟩

/-- C9 counterexample: the artifact writer's helper does not left-pad;
`"123456.0"` renders as `"123456"`, not `"00123456"`. -/
theorem c9_counterexample :
    formatSecondColumnValue "123456.0" = "123456" ∧
    formatSecondColumnValue "123456.0" ≠ "00123456" := by
  constructor <;> decide

/-- C9 amended: the artifact writer's second-column helper
(`_format_second_column_value`) strips a trailing `".0"` (mapping
empty/`"nan"` to empty) and never left-pads — its output is never longer
than its input.  The 8-digit zero-padding of numeric values is applied
earlier, by the web client's `format_kvk_number` at extraction time, which
maps `"123456.0"` to `"00123456"` and `"42"` to `"00000042"`. -/
theorem c9_second_column_formatting (v : String) :
    (formatSecondColumnValue v = stripDotZero v ∨ formatSecondColumnValue v = "") ∧
    (formatSecondColumnValue v).length ≤ v.length ∧
    format_kvk_number "123456.0" = "00123456" ∧
    format_kvk_number "42" = "00000042" := by
  refine ⟨?_, ?_, by decide, by decide⟩
  · unfold formatSecondColumnValue
    by_cases h : v = "" ∨ v = "nan"
    · right
      rcases h with h | h <;> simp [h]
    · left
      push_neg at h
      simp [h.1, h.2]
  · unfold formatSecondColumnValue
    by_cases h : v = "" ∨ v = "nan"
    · rcases h with h | h <;> simp [h]
    · push_neg at h
      have hcond : (decide (v = "") || decide (v = "nan")) = false := by
        simp [h.1, h.2]
      rw [hcond]
      simp only [Bool.false_eq_true, if_false]
      unfold stripDotZero
      by_cases h2 : pyEndsWith v ".0" = true
      · simp only [h2, if_true]
        have hlen : (String.mk v.toList.dropLast.dropLast).length
            = v.toList.dropLast.dropLast.length := rfl
        have hv : v.length = v.toList.length := rfl
        rw [hlen, hv, List.length_dropLast, List.length_dropLast]
        omega
      · simp [h2]



/-- C3: Flow C with an existing snapshot, a detected change and no new
keys: the engine hands the snapshot store the full stamped fetched frame —
every row's `created_date` set to today, the prior snapshot's rows (their
original `created_date` values, and any keys absent from the fetch)
discarded — and returns `new_rows_count = 0`, with `total_rows` the number
of fetched rows. -/
theorem c3_wholesale_replace (convertTime : String → String)
    (today filename ucol : String) (F S : DF) (manip : Bool) (excel : Option DF)
    (hcols : F.cols.head? = some ucol) (hFcd : "created_date" ∉ F.cols) (hFwf : F.WF)
    (hSne : S.empty = false) (hScd : "created_date" ∈ S.cols) (huS : ucol ∈ S.cols)
    (hchanged : detectDataChanges (addCreatedDateColumn today F) S ucol = true)
    (hnonew : ∀ r ∈ F.rows, cellAt r 0 ∈ S.getCol ucol) :
    ∃ res, writeExcelIncremental convertTime today F filename (some S) manip excel =
        Except.ok res ∧
      res.savedBackup =
        some ⟨F.cols ++ ["created_date"], F.rows.map (fun r => r ++ [today])⟩ ∧
      res.newRowsCount = 0 ∧ res.totalRows = F.rows.length := by
  obtain ⟨us, hFcols⟩ : ∃ us, F.cols = ucol :: us := by
    cases hc : F.cols with
    | nil => rw [hc] at hcols; cases hcols
    | cons a as =>
      rw [hc] at hcols
      simp only [List.head?] at hcols
      exact ⟨as, by rw [Option.some.inj hcols]⟩
  have hnil : (findNewRows (addCreatedDateColumn today F) S ucol).rows = [] := by
    unfold findNewRows DF.filterRows
    simp only [hSne, Bool.false_eq_true, if_false]
    rw [addCreatedDate_of_not_mem today F hFcd]
    simp only []
    rw [hFcols]
    simp only [List.cons_append, List.indexOf_cons_self]
    apply List.filter_eq_nil_iff.mpr
    intro a ha
    obtain ⟨r, hr, rfl⟩ := List.mem_map.mp ha
    have hrl : r.length = F.cols.length := hFwf r hr
    have h0 : 0 < r.length := by rw [hrl, hFcols]; simp
    have hcell : cellAt (r ++ [today]) 0 = cellAt r 0 := by
      unfold cellAt
      exact List.getD_append r [today] "" 0 h0
    rw [hcell, contains_eq_true (hnonew r hr)]
    simp
  have hidem := addCreatedDate_idem today F hFcd hFwf
  have hred : writeExcelIncremental convertTime today F filename (some S) manip excel =
      Except.ok ⟨filename,
        (match (if manip then excel else none : Option DF) with
         | some e => preserveCustomColumns (addCreatedDateColumn today F) e
         | none => addCreatedDateColumn today F).rows.length, 0,
        some (addCreatedDateColumn today F),
        (match (if manip then excel else none : Option DF) with
         | some e => preserveCustomColumns (addCreatedDateColumn today F) e
         | none => addCreatedDateColumn today F)⟩ := by
    simp [writeExcelIncremental, hcols, hSne,
      ensureCreatedDate_of_mem convertTime today S hScd, hchanged,
      contains_eq_true huS, huS, hnil, hidem]
  refine ⟨_, hred, ?_, rfl, ?_⟩
  · rw [addCreatedDate_of_not_mem today F hFcd]
  · cases hme : (if manip then excel else none : Option DF) with
    | some e =>
      simp only [hme, preserve_rows_length]
      rw [addCreatedDate_of_not_mem today F hFcd]
      simp
    | none =>
      simp only [hme]
      rw [addCreatedDate_of_not_mem today F hFcd]
      simp

/-- C3 witness: the §8 "Bobby" update (`id="002"` renamed, no new key)
evaluated concretely. -/
theorem c3_wholesale_replace_witness :
    ∃ res, writeExcelIncremental (fun s => s) "2025-10-12"
        ⟨["id", "name"], [["001", "Alice"], ["002", "Bobby"]]⟩ "acme.xlsx"
        (some ⟨["id", "name", "created_date"],
          [["001", "Alice", "2025-10-01"], ["002", "Bob", "2025-10-01"]]⟩) false none =
        Except.ok res ∧
      res.savedBackup = some ⟨["id", "name"] ++ ["created_date"],
        (([["001", "Alice"], ["002", "Bobby"]] : List (List String)).map
          (fun r => r ++ ["2025-10-12"]))⟩ ∧
      res.newRowsCount = 0 ∧
      res.totalRows = ([["001", "Alice"], ["002", "Bobby"]] : List (List String)).length :=
  c3_wholesale_replace (fun s => s) "2025-10-12" "acme.xlsx" "id"
    ⟨["id", "name"], [["001", "Alice"], ["002", "Bobby"]]⟩
    ⟨["id", "name", "created_date"],
      [["001", "Alice", "2025-10-01"], ["002", "Bob", "2025-10-01"]]⟩
    false none (by decide) (by decide) (by unfold DF.WF; decide) (by decide) (by decide)
    (by decide) (by decide) (by decide)

/-- Unfolding of `dropCol` when the column is present. -/
theorem dropCol_of_mem (df : DF) (c : String) (h : c ∈ df.cols) :
    df.dropCol c = ⟨df.cols.eraseIdx (df.cols.indexOf c),
      df.rows.map (fun r => r.eraseIdx (df.cols.indexOf c))⟩ := by
  unfold DF.dropCol
  rw [if_pos (contains_eq_true h)]

/-- C4 amended: the spec's equality definition needs "same column count"
added (the code also compares shapes).  Under that strengthened equality —
ignoring `created_date`, after sorting by the unique key: same row count,
same column count, every shared column's value sequences identical — the
engine takes Flow B: `new_rows_count = 0`, the snapshot file is not
rewritten (`savedBackup = none`) and `total_rows` is the snapshot's row
count; since no state changes, an immediately repeated call with the same
fetch again returns `new_rows_count = 0`. -/
theorem c4_no_change_noop (convertTime : String → String)
    (today filename ucol : String) (F S : DF) (manip : Bool) (excel : Option DF)
    (hcols : F.cols.head? = some ucol) (hFcd : "created_date" ∉ F.cols) (hFwf : F.WF)
    (hFrows : F.rows ≠ [])
    (hSne : S.empty = false) (hScd : "created_date" ∈ S.cols) (hSnodup : S.cols.Nodup)
    (huS : ucol ∈ S.cols) (hucd : ucol ≠ "created_date")
    (hEq : specEqualShape (addCreatedDateColumn today F) S ucol = true) :
    ∃ res, writeExcelIncremental convertTime today F filename (some S) manip excel =
        Except.ok res ∧
      res.newRowsCount = 0 ∧ res.savedBackup = none ∧ res.totalRows = S.rows.length := by
  obtain ⟨us, hFcols⟩ : ∃ us, F.cols = ucol :: us := by
    cases hc : F.cols with
    | nil => rw [hc] at hcols; cases hcols
    | cons a as =>
      rw [hc] at hcols
      simp only [List.head?] at hcols
      exact ⟨as, by rw [Option.some.inj hcols]⟩
  have hSrows : S.rows ≠ [] := by
    intro hr
    rw [DF.empty, hr] at hSne
    simp at hSne
  have hBcols : (S.dropCol "created_date").cols = S.cols.erase "created_date" := by
    rw [dropCol_of_mem S _ hScd]
    exact List.eraseIdx_indexOf_eq_erase "created_date" S.cols
  have hBcd : "created_date" ∉ (S.dropCol "created_date").cols := by
    rw [hBcols]
    exact hSnodup.not_mem_erase
  have huB : ucol ∈ (S.dropCol "created_date").cols := by
    rw [hBcols]
    exact (List.mem_erase_of_ne hucd).mpr huS
  have hBrows : (S.dropCol "created_date").rows.length = S.rows.length := by
    rw [dropCol_of_mem S _ hScd]
    exact List.length_map _ _
  have hFe : F.empty = false := by
    unfold DF.empty
    rw [hFcols]
    cases hr : F.rows with
    | nil => exact absurd hr hFrows
    | cons a b => simp
  have hBe : (S.dropCol "created_date").empty = false := by
    unfold DF.empty
    cases hr : (S.dropCol "created_date").rows with
    | nil =>
      have := hBrows
      rw [hr] at this
      exact absurd (List.eq_nil_of_length_eq_zero this.symm) hSrows
    | cons a b =>
      cases hc : (S.dropCol "created_date").cols with
      | nil => rw [hc] at huB; cases huB
      | cons x y => simp
  simp only [specEqualShape, specEqual] at hEq
  rw [addCreatedDate_dropCol today F hFcd hFwf] at hEq
  rw [Bool.and_eq_true, Bool.and_eq_true] at hEq
  obtain ⟨⟨h1, h2⟩, h3⟩ := hEq
  have hgoal : dataframesAreEqual F (S.dropCol "created_date") ucol = true := by
    unfold dataframesAreEqual
    rw [hFe, hBe]
    simp only [Bool.and_self, Bool.or_self, Bool.false_eq_true, if_false]
    rw [dropCol_of_not_mem F _ hFcd, dropCol_of_not_mem _ _ hBcd]
    rw [contains_eq_true (by rw [hFcols]; exact List.mem_cons_self ucol us),
      contains_eq_true huB]
    simp only [Bool.not_true, Bool.or_self, Bool.false_eq_true, if_false]
    have hlen : ((F.sortByCol ucol).rows.length !=
        (((S.dropCol "created_date").sortByCol ucol).rows.length)) = false := by
      rw [bne, h1]
      rfl
    have hclen : (((F.sortByCol ucol).cols.length) !=
        (((S.dropCol "created_date").sortByCol ucol).cols.length)) = false := by
      rw [bne]
      unfold DF.sortByCol
      simp only []
      rw [h3]
      rfl
    rw [hlen, hclen]
    simp only [Bool.or_self, Bool.false_eq_true, if_false]
    exact h2
  have hch : detectDataChanges (addCreatedDateColumn today F) S ucol = false := by
    unfold detectDataChanges
    rw [addCreatedDate_dropCol today F hFcd hFwf, hgoal]
    rfl
  have hred : writeExcelIncremental convertTime today F filename (some S) manip excel =
      Except.ok ⟨filename,
        (match (if manip then excel else none : Option DF) with
         | some e => preserveCustomColumns S e
         | none => S).rows.length, 0, none,
        (match (if manip then excel else none : Option DF) with
         | some e => preserveCustomColumns S e
         | none => S)⟩ := by
    simp [writeExcelIncremental, hcols, hSne,
      ensureCreatedDate_of_mem convertTime today S hScd, hch]
  refine ⟨_, hred, rfl, rfl, ?_⟩
  cases hme : (if manip then excel else none : Option DF) with
  | some e => simp only [hme, preserve_rows_length]
  | none => simp only [hme]

/-- C4 witness: re-reconciling the §8 two-row snapshot with an identical
fetch is a no-op, evaluated concretely. -/
theorem c4_no_change_noop_witness :
    ∃ res, writeExcelIncremental (fun s => s) "2025-10-12"
        ⟨["id", "name"], [["001", "Alice"], ["002", "Bob"]]⟩ "acme.xlsx"
        (some ⟨["id", "name", "created_date"],
          [["001", "Alice", "2025-10-01"], ["002", "Bob", "2025-10-01"]]⟩) false none =
        Except.ok res ∧
      res.newRowsCount = 0 ∧ res.savedBackup = none ∧
      res.totalRows = (⟨["id", "name", "created_date"],
        [["001", "Alice", "2025-10-01"], ["002", "Bob", "2025-10-01"]]⟩ : DF).rows.length :=
  c4_no_change_noop (fun s => s) "2025-10-12" "acme.xlsx" "id"
    ⟨["id", "name"], [["001", "Alice"], ["002", "Bob"]]⟩
    ⟨["id", "name", "created_date"],
      [["001", "Alice", "2025-10-01"], ["002", "Bob", "2025-10-01"]]⟩
    false none (by decide) (by decide) (by unfold DF.WF; decide) (by decide) (by decide)
    (by decide) (by decide) (by decide) (by decide) (by decide)

/-- Re-aligning a well-formed row onto its own (duplicate-free) column list
is the identity. -/
theorem alignRow_self (cols : List String) (r : List String)
    (hnodup : cols.Nodup) (hlen : r.length = cols.length) :
    alignRow cols r cols = r := by
  unfold alignRow
  apply List.ext_getElem
  · simp [hlen]
  · intro i h1 h2
    simp only [List.getElem_map]
    have hi : i < cols.length := by simpa using h1
    have hm : cols[i] ∈ cols := List.getElem_mem hi
    rw [contains_eq_true hm, if_pos rfl, List.indexOf_getElem hnodup i hi]
    unfold cellAt
    exact List.getD_eq_getElem r "" h2

/-- `pd.concat` of two frames over the same duplicate-free schema is plain
row concatenation. -/
theorem concat_same_cols (d1 d2 : DF) (hc : d2.cols = d1.cols)
    (hnodup : d1.cols.Nodup) (h1 : d1.WF) (h2 : d2.WF) :
    DF.concat d1 d2 = ⟨d1.cols, d1.rows ++ d2.rows⟩ := by
  unfold DF.concat
  have hfilter : d2.cols.filter (fun c => !d1.cols.contains c) = [] := by
    apply List.filter_eq_nil_iff.mpr
    intro c hcmem
    rw [hc] at hcmem
    rw [contains_eq_true hcmem]
    simp
  simp only [hfilter, List.append_nil]
  ext1
  · rfl
  · show d1.rows.map (fun r => alignRow d1.cols r d1.cols) ++
        d2.rows.map (fun r => alignRow d2.cols r d1.cols) = d1.rows ++ d2.rows
    rw [hc]
    congr 1
    · rw [List.map_congr_left (fun r hr => alignRow_self d1.cols r hnodup (h1 r hr))]
      exact List.map_id d1.rows
    · rw [List.map_congr_left (fun r hr => alignRow_self d1.cols r hnodup ?_)]
      · exact List.map_id d2.rows
      · rw [h2 r hr, hc]

/-- C2: Flow C with new keys.  When the stamped fetch shares the snapshot's
schema, the engine hands the snapshot store exactly the existing snapshot
followed by the stamped fetched rows whose key is absent from the snapshot,
in fetch order; every row of the snapshot (including rows whose non-key
fields changed in the fetch) is left unchanged, `new_rows_count` is the
number of distinct new keys, and `total_rows` adds the appended row count
to the snapshot's. -/
theorem c2_additive_merge (convertTime : String → String)
    (today filename ucol : String) (F S : DF) (manip : Bool) (excel : Option DF)
    (hcols : F.cols.head? = some ucol) (hFcd : "created_date" ∉ F.cols) (hFwf : F.WF)
    (hSne : S.empty = false) (hScd : "created_date" ∈ S.cols) (hSwf : S.WF)
    (hSnodup : S.cols.Nodup) (hsch : F.cols ++ ["created_date"] = S.cols)
    (hkeys : (F.rows.map (fun r => cellAt r 0)).Nodup)
    (hchanged : detectDataChanges (addCreatedDateColumn today F) S ucol = true)
    (hnew : ∃ r ∈ F.rows, cellAt r 0 ∉ S.getCol ucol) :
    ∃ res, writeExcelIncremental convertTime today F filename (some S) manip excel =
        Except.ok res ∧
      res.savedBackup = some ⟨S.cols,
        S.rows ++ (F.rows.filter
          (fun r => !(S.getCol ucol).contains (cellAt r 0))).map (fun r => r ++ [today])⟩ ∧
      res.newRowsCount =
        ((F.rows.map (fun r => cellAt r 0)).filter
          (fun k => !(S.getCol ucol).contains k)).dedup.length ∧
      res.totalRows = S.rows.length +
        (F.rows.filter (fun r => !(S.getCol ucol).contains (cellAt r 0))).length := by
  obtain ⟨us, hFcols⟩ : ∃ us, F.cols = ucol :: us := by
    cases hc : F.cols with
    | nil => rw [hc] at hcols; cases hcols
    | cons a as =>
      rw [hc] at hcols
      simp only [List.head?] at hcols
      exact ⟨as, by rw [Option.some.inj hcols]⟩
  have huS : ucol ∈ S.cols := by
    rw [← hsch, hFcols]
    exact List.mem_append_left _ (List.mem_cons_self ucol us)
  have hrowlen : ∀ r ∈ F.rows, 0 < r.length := by
    intro r hr
    rw [hFwf r hr, hFcols]
    simp
  have hfind : findNewRows (addCreatedDateColumn today F) S ucol =
      ⟨F.cols ++ ["created_date"],
        (F.rows.filter (fun r => !(S.getCol ucol).contains (cellAt r 0))).map
          (fun r => r ++ [today])⟩ := by
    unfold findNewRows DF.filterRows
    simp only [hSne, Bool.false_eq_true, if_false]
    rw [addCreatedDate_of_not_mem today F hFcd]
    simp only [hFcols, List.cons_append, List.indexOf_cons_self]
    ext1
    · rfl
    · show ((F.rows.map fun r => r ++ [today]).filter
          (fun r => !(S.getCol ucol).contains (cellAt r 0))) = _
      rw [List.filter_map]
      simp only []
      apply congrArg
      apply List.filter_congr
      intro r hr
      simp only [Function.comp]
      have hcell : cellAt (r ++ [today]) 0 = cellAt r 0 := by
        unfold cellAt
        exact List.getD_append r [today] "" 0 (hrowlen r hr)
      rw [hcell]
  have hpos : 0 < ((F.rows.filter (fun r => !(S.getCol ucol).contains (cellAt r 0))).map
      (fun r => r ++ [today])).length := by
    obtain ⟨r, hr, hnot⟩ := hnew
    have hm : r ∈ F.rows.filter (fun r => !(S.getCol ucol).contains (cellAt r 0)) := by
      apply List.mem_filter.mpr
      refine ⟨hr, ?_⟩
      rw [contains_eq_false hnot]
      rfl
    rw [List.length_map]
    exact List.length_pos.mpr (List.ne_nil_of_mem hm)
  have hd2wf : (⟨F.cols ++ ["created_date"],
      (F.rows.filter (fun r => !(S.getCol ucol).contains (cellAt r 0))).map
        (fun r => r ++ [today])⟩ : DF).WF := by
    intro r hr
    simp only [List.mem_map] at hr
    obtain ⟨r0, hr0, rfl⟩ := hr
    have hr0F : r0 ∈ F.rows := (List.mem_filter.mp hr0).1
    simp [hFwf r0 hr0F]
  have hcat := concat_same_cols S
    ⟨F.cols ++ ["created_date"],
      (F.rows.filter (fun r => !(S.getCol ucol).contains (cellAt r 0))).map
        (fun r => r ++ [today])⟩ hsch hSnodup hSwf hd2wf
  have hred : writeExcelIncremental convertTime today F filename (some S) manip excel =
      Except.ok ⟨filename,
        (match (if manip then excel else none : Option DF) with
         | some e => preserveCustomColumns ⟨S.cols,
             S.rows ++ (F.rows.filter
               (fun r => !(S.getCol ucol).contains (cellAt r 0))).map
                 (fun r => r ++ [today])⟩ e
         | none => ⟨S.cols,
             S.rows ++ (F.rows.filter
               (fun r => !(S.getCol ucol).contains (cellAt r 0))).map
                 (fun r => r ++ [today])⟩).rows.length,
        ((F.rows.filter (fun r => !(S.getCol ucol).contains (cellAt r 0))).map
          (fun r => r ++ [today])).length,
        some ⟨S.cols,
          S.rows ++ (F.rows.filter
            (fun r => !(S.getCol ucol).contains (cellAt r 0))).map
              (fun r => r ++ [today])⟩,
        (match (if manip then excel else none : Option DF) with
         | some e => preserveCustomColumns ⟨S.cols,
             S.rows ++ (F.rows.filter
               (fun r => !(S.getCol ucol).contains (cellAt r 0))).map
                 (fun r => r ++ [today])⟩ e
         | none => ⟨S.cols,
             S.rows ++ (F.rows.filter
               (fun r => !(S.getCol ucol).contains (cellAt r 0))).map
                 (fun r => r ++ [today])⟩)⟩ := by
    have hfind2 : findNewRows (addCreatedDateColumn today F) S ucol =
        ⟨F.cols ++ ["created_date"],
          (F.rows.filter (fun r => !decide (cellAt r 0 ∈ S.getCol ucol))).map
            (fun r => r ++ [today])⟩ := by
      simpa using hfind
    have hpos2 : 0 < ((F.rows.filter
        (fun r => !decide (cellAt r 0 ∈ S.getCol ucol))).map (fun r => r ++ [today])).length := by
      simpa using hpos
    have hcat2 : S.concat
        ⟨F.cols ++ ["created_date"],
          (F.rows.filter (fun r => !decide (cellAt r 0 ∈ S.getCol ucol))).map
            (fun r => r ++ [today])⟩ =
        ⟨S.cols, S.rows ++ (F.rows.filter
          (fun r => !decide (cellAt r 0 ∈ S.getCol ucol))).map (fun r => r ++ [today])⟩ := by
      have h := hcat
      simpa using h
    have hpos3 : 0 < (F.rows.filter
        (fun r => !decide (cellAt r 0 ∈ S.getCol ucol))).length := by
      simpa using hpos
    simp [writeExcelIncremental, hcols, hSne,
      ensureCreatedDate_of_mem convertTime today S hScd, hchanged,
      contains_eq_true huS, huS, hfind2, hpos2, hpos3, hcat2]
  have hcount : ((F.rows.filter (fun r => !(S.getCol ucol).contains (cellAt r 0))).map
      (fun r => r ++ [today])).length =
      ((F.rows.map (fun r => cellAt r 0)).filter
        (fun k => !(S.getCol ucol).contains k)).dedup.length := by
    rw [List.filter_map]
    have hnd : ((F.rows.filter
        ((fun k => !(S.getCol ucol).contains k) ∘ fun r => cellAt r 0)).map
        (fun r => cellAt r 0)).Nodup :=
      hkeys.sublist ((List.filter_sublist F.rows).map (fun r => cellAt r 0))
    rw [List.Nodup.dedup hnd, List.length_map, List.length_map]
    rfl
  refine ⟨_, hred, rfl, hcount, ?_⟩
  cases hme : (if manip then excel else none : Option DF) with
  | some e =>
    simp only [hme, preserve_rows_length]
    simp
  | none =>
    simp only [hme]
    simp

/-- C2 witness: the §8 additive merge (Carol appears) evaluated
concretely. -/
theorem c2_additive_merge_witness :
    ∃ res, writeExcelIncremental (fun s => s) "2025-10-12"
        ⟨["id", "name"], [["001", "Alice"], ["002", "Bob"], ["003", "Carol"]]⟩ "acme.xlsx"
        (some ⟨["id", "name", "created_date"],
          [["001", "Alice", "2025-10-01"], ["002", "Bob", "2025-10-01"]]⟩) false none =
        Except.ok res ∧
      res.savedBackup = some ⟨(⟨["id", "name", "created_date"],
          [["001", "Alice", "2025-10-01"], ["002", "Bob", "2025-10-01"]]⟩ : DF).cols,
        (⟨["id", "name", "created_date"],
          [["001", "Alice", "2025-10-01"], ["002", "Bob", "2025-10-01"]]⟩ : DF).rows ++
        ((⟨["id", "name"], [["001", "Alice"], ["002", "Bob"], ["003", "Carol"]]⟩ : DF).rows.filter
          (fun r => !((⟨["id", "name", "created_date"],
            [["001", "Alice", "2025-10-01"], ["002", "Bob", "2025-10-01"]]⟩ : DF).getCol
              "id").contains (cellAt r 0))).map (fun r => r ++ ["2025-10-12"])⟩ ∧
      res.newRowsCount =
        (((⟨["id", "name"], [["001", "Alice"], ["002", "Bob"], ["003", "Carol"]]⟩ : DF).rows.map
          (fun r => cellAt r 0)).filter
            (fun k => !((⟨["id", "name", "created_date"],
              [["001", "Alice", "2025-10-01"], ["002", "Bob", "2025-10-01"]]⟩ : DF).getCol
                "id").contains k)).dedup.length ∧
      res.totalRows = (⟨["id", "name", "created_date"],
          [["001", "Alice", "2025-10-01"], ["002", "Bob", "2025-10-01"]]⟩ : DF).rows.length +
        ((⟨["id", "name"], [["001", "Alice"], ["002", "Bob"], ["003", "Carol"]]⟩ : DF).rows.filter
          (fun r => !((⟨["id", "name", "created_date"],
            [["001", "Alice", "2025-10-01"], ["002", "Bob", "2025-10-01"]]⟩ : DF).getCol
              "id").contains (cellAt r 0))).length :=
  c2_additive_merge (fun s => s) "2025-10-12" "acme.xlsx" "id"
    ⟨["id", "name"], [["001", "Alice"], ["002", "Bob"], ["003", "Carol"]]⟩
    ⟨["id", "name", "created_date"],
      [["001", "Alice", "2025-10-01"], ["002", "Bob", "2025-10-01"]]⟩
    false none (by decide) (by decide) (by unfold DF.WF; decide) (by decide) (by decide)
    (by unfold DF.WF; decide) (by decide) (by decide) (by decide) (by decide) (by decide)

/-- `getD` after `set` at a different position. -/
theorem cellAt_set_ne (r : List String) (i j : Nat) (v : String) (h : i ≠ j) :
    cellAt (r.set i v) j = cellAt r j := by
  unfold cellAt
  rw [List.getD_eq_getElem?_getD, List.getD_eq_getElem?_getD, List.getElem?_set_ne h]

/-- `getD` after `set` at the same (in-bounds) position. -/
theorem cellAt_set_self (r : List String) (i : Nat) (v : String) (h : i < r.length) :
    cellAt (r.set i v) i = v := by
  unfold cellAt
  rw [List.getD_eq_getElem?_getD, List.getElem?_set_self h]
  rfl

/-- Unfolding of `setColBy` when the column exists. -/
theorem setColBy_existing (df : DF) (c : String) (f : List String → String)
    (h : c ∈ df.cols) :
    df.setColBy c f = ⟨df.cols, df.rows.map (fun r => r.set (df.cols.indexOf c) (f r))⟩ := by
  unfold DF.setColBy
  rw [if_pos (contains_eq_true h)]

/-- Unfolding of `setColBy` when the column is new. -/
theorem setColBy_fresh (df : DF) (c : String) (f : List String → String)
    (h : c ∉ df.cols) :
    df.setColBy c f = ⟨df.cols ++ [c], df.rows.map (fun r => r ++ [f r])⟩ := by
  unfold DF.setColBy
  rw [if_neg (fun hc => h (List.elem_iff.mp hc))]

/-- The first loop of `_preserve_custom_columns` (`result_df[col] = \'\'`):
appending the custom columns empty-valued. -/
theorem foldl_empty_cols_char :
    ∀ (cs : List String) (df : DF), (∀ x ∈ cs, x ∉ df.cols) → cs.Nodup →
    cs.foldl (fun d c => d.setColBy c (fun _ => "")) df =
      ⟨df.cols ++ cs, df.rows.map (fun r => r ++ List.replicate cs.length "")⟩ := by
  intro cs
  induction cs with
  | nil =>
    intro df _ _
    ext1
    · simp
    · simp
  | cons c cs ih =>
    intro df hdisj hnd
    rw [List.foldl_cons, setColBy_fresh df c _ (hdisj c (List.mem_cons_self c cs))]
    rw [ih ⟨df.cols ++ [c], df.rows.map (fun r => r ++ [""])⟩ ?_ (List.nodup_cons.mp hnd).2]
    · ext1
      · simp
      · simp only [List.map_map]
        apply List.map_congr_left
        intro r hr
        simp [Function.comp, List.append_assoc, List.replicate_succ]
    · intro x hx hmem
      rcases List.mem_append.mp hmem with h1 | h1
      · exact hdisj x (List.mem_cons_of_mem c hx) h1
      · have hxc : x = c := List.mem_singleton.mp h1
        subst hxc
        exact (List.nodup_cons.mp hnd).1 hx

/-- The second loop of `_preserve_custom_columns` keeps the column list. -/
theorem foldl_mapping_cols (E : DF) (ucol : String) :
    ∀ (ds : List String) (df : DF), (∀ x ∈ ds, x ∈ df.cols) →
    (ds.foldl (fun d x => d.setColBy x
      (fun r => (colMapping E ucol x (cellAt r (d.cols.indexOf ucol))).getD "")) df).cols =
      df.cols := by
  intro ds
  induction ds with
  | nil => intro df _; rfl
  | cons x ds ih =>
    intro df hin
    rw [List.foldl_cons, setColBy_existing df x _ (hin x (List.mem_cons_self x ds))]
    exact ih _ (fun y hy => hin y (List.mem_cons_of_mem x hy))

/-- The second loop of `_preserve_custom_columns` keeps each row's width. -/
theorem foldl_mapping_wf (E : DF) (ucol : String) :
    ∀ (ds : List String) (df : DF), (∀ x ∈ ds, x ∈ df.cols) → df.WF →
    (ds.foldl (fun d x => d.setColBy x
      (fun r => (colMapping E ucol x (cellAt r (d.cols.indexOf ucol))).getD "")) df).WF := by
  intro ds
  induction ds with
  | nil => intro df _ hwf; exact hwf
  | cons x ds ih =>
    intro df hin hwf
    rw [List.foldl_cons, setColBy_existing df x _ (hin x (List.mem_cons_self x ds))]
    refine ih ⟨df.cols, df.rows.map (fun r => r.set (df.cols.indexOf x)
        ((colMapping E ucol x (cellAt r (df.cols.indexOf ucol))).getD ""))⟩
      (fun y hy => hin y (List.mem_cons_of_mem x hy)) ?_
    intro r hr
    simp only [List.mem_map] at hr
    obtain ⟨r0, hr0, rfl⟩ := hr
    simp [hwf r0 hr0]

/-- The second loop of `_preserve_custom_columns` leaves columns it does
not process untouched. -/
theorem foldl_mapping_getCol_notmem (E : DF) (ucol : String) :
    ∀ (ds : List String) (df : DF) (c : String),
    c ∉ ds → (∀ x ∈ ds, x ∈ df.cols) → df.cols.Nodup →
    (ds.foldl (fun d x => d.setColBy x
      (fun r => (colMapping E ucol x (cellAt r (d.cols.indexOf ucol))).getD "")) df).getCol c =
      df.getCol c := by
  intro ds
  induction ds with
  | nil => intro df c _ _ _; rfl
  | cons x ds ih =>
    intro df c hc hin hnd
    rw [List.foldl_cons, setColBy_existing df x _ (hin x (List.mem_cons_self x ds))]
    rw [ih ⟨df.cols, df.rows.map (fun r => r.set (df.cols.indexOf x)
        ((colMapping E ucol x (cellAt r (df.cols.indexOf ucol))).getD ""))⟩ c
      (fun hm => hc (List.mem_cons_of_mem x hm))
      (fun y hy => hin y (List.mem_cons_of_mem x hy)) hnd]
    unfold DF.getCol
    simp only [List.map_map]
    apply List.map_congr_left
    intro r hr
    simp only [Function.comp]
    apply cellAt_set_ne
    intro heq
    have hxmem : x ∈ df.cols := hin x (List.mem_cons_self x ds)
    by_cases hcc : c ∈ df.cols
    · have hxc : x = c := (List.indexOf_inj hxmem hcc).mp heq
      exact hc (hxc ▸ List.mem_cons_self x ds)
    · have h1 : List.indexOf x df.cols < df.cols.length := List.indexOf_lt_length.mpr hxmem
      have h2 : List.indexOf c df.cols = df.cols.length := List.indexOf_of_not_mem hcc
      omega

/-- The second loop of `_preserve_custom_columns`: each processed column
carries the per-key dictionary value, looked up at the row's unique key. -/
theorem foldl_mapping_getCol (E : DF) (ucol : String) :
    ∀ (cs : List String) (df : DF) (c : String),
    c ∈ cs → cs.Nodup → (∀ x ∈ cs, x ∈ df.cols) → df.cols.Nodup →
    df.cols.indexOf ucol = 0 → (∀ x ∈ cs, 1 ≤ df.cols.indexOf x) → df.WF →
    (cs.foldl (fun d x => d.setColBy x
      (fun r => (colMapping E ucol x (cellAt r (d.cols.indexOf ucol))).getD "")) df).getCol c =
      df.rows.map (fun r => (colMapping E ucol c (cellAt r 0)).getD "") := by
  intro cs
  induction cs with
  | nil => intro df c hc; cases hc
  | cons x cs ih =>
    intro df c hc hnd hin hcnd hu hge hwf
    rw [List.foldl_cons, setColBy_existing df x _ (hin x (List.mem_cons_self x cs))]
    by_cases hcx : c = x
    · subst hcx
      have hcnotin : c ∉ cs := (List.nodup_cons.mp hnd).1
      rw [foldl_mapping_getCol_notmem E ucol cs
        ⟨df.cols, df.rows.map (fun r => r.set (df.cols.indexOf c)
          ((colMapping E ucol c (cellAt r (df.cols.indexOf ucol))).getD ""))⟩ c hcnotin
        (fun y hy => hin y (List.mem_cons_of_mem c hy)) hcnd]
      unfold DF.getCol
      simp only [List.map_map]
      apply List.map_congr_left
      intro r hr
      simp only [Function.comp, hu]
      rw [cellAt_set_self]
      rw [hwf r hr]
      exact List.indexOf_lt_length.mpr (hin c (List.mem_cons_self c cs))
    · have hc' : c ∈ cs := (List.mem_cons.mp hc).resolve_left hcx
      rw [ih ⟨df.cols, df.rows.map (fun r => r.set (df.cols.indexOf x)
          ((colMapping E ucol x (cellAt r (df.cols.indexOf ucol))).getD ""))⟩ c hc'
        (List.nodup_cons.mp hnd).2
        (fun y hy => hin y (List.mem_cons_of_mem x hy)) hcnd hu
        (fun y hy => hge y (List.mem_cons_of_mem x hy)) ?_]
      · simp only [List.map_map]
        apply List.map_congr_left
        intro r hr
        simp only [Function.comp]
        rw [cellAt_set_ne]
        intro heq
        have := hge x (List.mem_cons_self x cs)
        omega
      · intro r hr
        simp only [List.mem_map] at hr
        obtain ⟨r0, hr0, rfl⟩ := hr
        simp [hwf r0 hr0]

/-- C6 counterexample: in the bootstrap flow (no snapshot), custom-column
preservation is skipped even though tampering was detected and the
artifact is readable: the `Notes` column (value `"VIP"`) present in the
tampered artifact is absent from the rewritten artifact. -/
theorem c6_counterexample :
    writeExcelIncremental (fun s => s) "2025-10-13"
        ⟨["id", "name"], [["001", "Alice"]]⟩ "acme.xlsx" none true
        (some ⟨["id", "name", "created_date", "Notes"],
          [["001", "Alice", "2025-10-01", "VIP"]]⟩) =
      Except.ok ⟨"acme.xlsx", 1, 1,
        some ⟨["id", "name", "created_date"], [["001", "Alice", "2025-10-13"]]⟩,
        ⟨["id", "name", "created_date"], [["001", "Alice", "2025-10-13"]]⟩⟩ ∧
    "Notes" ∈ (⟨["id", "name", "created_date", "Notes"],
      [["001", "Alice", "2025-10-01", "VIP"]]⟩ : DF).cols ∧
    "Notes" ∉ (⟨["id", "name", "created_date"],
      [["001", "Alice", "2025-10-13"]]⟩ : DF).cols := by
  refine ⟨by rfl, by decide, by decide⟩

/-- C6 amended: custom-column re-attachment happens on calls where a
snapshot exists (flows B/C); here the no-change flow of the claim's cited
scenario.  With tampering detected and the artifact readable, every column
of the artifact absent from the snapshot appears in the rewritten
artifact, and each row carries the artifact's dictionary value for the
row's unique key — the empty string for keys the column never covered. -/
theorem c6_custom_column_reattached (convertTime : String → String)
    (today filename ucol : String) (F S E : DF) (c : String)
    (hcols : F.cols.head? = some ucol)
    (hSne : S.empty = false) (hScd : "created_date" ∈ S.cols)
    (hSucol : S.cols.headD "" = ucol) (hSwf : S.WF) (hSnodup : S.cols.Nodup)
    (hEne : E.empty = false) (hEnodup : E.cols.Nodup) (huE : ucol ∈ E.cols)
    (hcE : c ∈ E.cols) (hcS : c ∉ S.cols)
    (hnochange : detectDataChanges (addCreatedDateColumn today F) S ucol = false) :
    ∃ res, writeExcelIncremental convertTime today F filename (some S) true (some E) =
        Except.ok res ∧
      res.savedBackup = none ∧
      c ∈ res.excelWritten.cols ∧
      res.excelWritten.getCol c =
        S.rows.map (fun r => (colMapping E ucol c (cellAt r 0)).getD "") := by
  obtain ⟨st, hScols⟩ : ∃ st, S.cols = ucol :: st := by
    cases hsc : S.cols with
    | nil =>
      rw [DF.empty, hsc] at hSne
      simp at hSne
    | cons a t =>
      rw [hsc] at hSucol
      simp only [List.headD] at hSucol
      refine ⟨t, ?_⟩
      rw [hSucol]
  have hcmem : c ∈ E.cols.filter (fun x => !S.cols.contains x) :=
    List.mem_filter.mpr ⟨hcE, by rw [contains_eq_false hcS]; rfl⟩
  have hcsnd : (E.cols.filter (fun x => !S.cols.contains x)).Nodup :=
    List.Nodup.filter _ hEnodup
  have hcsdisj : ∀ x ∈ E.cols.filter (fun x => !S.cols.contains x), x ∉ S.cols := by
    intro x hx hmem
    have hb := (List.mem_filter.mp hx).2
    rw [contains_eq_true hmem] at hb
    exact absurd hb (by simp)
  have hisE : (E.cols.filter (fun x => !S.cols.contains x)).isEmpty = false := by
    cases hcse : E.cols.filter (fun x => !S.cols.contains x) with
    | nil => rw [hcse] at hcmem; cases hcmem
    | cons a t => rfl
  have hpres : preserveCustomColumns S E =
      (E.cols.filter (fun x => !S.cols.contains x)).foldl
        (fun d x => d.setColBy x
          (fun r => (colMapping E ucol x (cellAt r (d.cols.indexOf ucol))).getD ""))
        ⟨S.cols ++ E.cols.filter (fun x => !S.cols.contains x),
         S.rows.map (fun r =>
           r ++ List.replicate (E.cols.filter (fun x => !S.cols.contains x)).length "")⟩ := by
    simp only [preserveCustomColumns, hEne, Bool.false_eq_true, if_false, hisE, hSucol,
      contains_eq_true huE, if_true,
      foldl_empty_cols_char (E.cols.filter (fun x => !S.cols.contains x)) S hcsdisj hcsnd]
  have hdf0cols : (⟨S.cols ++ E.cols.filter (fun x => !S.cols.contains x),
      S.rows.map (fun r =>
        r ++ List.replicate (E.cols.filter (fun x => !S.cols.contains x)).length "")⟩ : DF).cols
      = S.cols ++ E.cols.filter (fun x => !S.cols.contains x) := rfl
  have hgetcol : ((E.cols.filter (fun x => !S.cols.contains x)).foldl
        (fun (d : DF) (x : String) => d.setColBy x
          (fun r => (colMapping E ucol x (cellAt r (d.cols.indexOf ucol))).getD ""))
        ⟨S.cols ++ E.cols.filter (fun x => !S.cols.contains x),
         S.rows.map (fun r =>
           r ++ List.replicate (E.cols.filter (fun x => !S.cols.contains x)).length "")⟩).getCol c
      = S.rows.map (fun r => (colMapping E ucol c (cellAt r 0)).getD "") := by
    rw [foldl_mapping_getCol E ucol (E.cols.filter (fun x => !S.cols.contains x))
      ⟨S.cols ++ E.cols.filter (fun x => !S.cols.contains x),
       S.rows.map (fun r =>
         r ++ List.replicate (E.cols.filter (fun x => !S.cols.contains x)).length "")⟩ c hcmem
      hcsnd (fun x hx => List.mem_append_right _ hx)
      (List.Nodup.append hSnodup hcsnd (fun a ha hacs => hcsdisj a hacs ha))
      (by rw [hdf0cols, hScols]; exact List.indexOf_cons_self ucol _)
      (fun x hx => by
        rw [hdf0cols, List.indexOf_append_of_not_mem (hcsdisj x hx), hScols]
        simp only [List.length_cons]
        omega)
      (fun r hr => by
        simp only [List.mem_map] at hr
        obtain ⟨r0, hr0, rfl⟩ := hr
        simp [hSwf r0 hr0])]
    simp only [List.map_map]
    apply List.map_congr_left
    intro r hr
    simp only [Function.comp]
    have h0 : 0 < r.length := by
      rw [hSwf r hr, hScols]
      simp
    rw [show cellAt (r ++ List.replicate
        (E.cols.filter (fun x => !S.cols.contains x)).length "") 0 = cellAt r 0 from
      List.getD_append r _ "" 0 h0]
  have hfoldcols : ((E.cols.filter (fun x => !S.cols.contains x)).foldl
        (fun (d : DF) (x : String) => d.setColBy x
          (fun r => (colMapping E ucol x (cellAt r (d.cols.indexOf ucol))).getD ""))
        ⟨S.cols ++ E.cols.filter (fun x => !S.cols.contains x),
         S.rows.map (fun r =>
           r ++ List.replicate (E.cols.filter (fun x => !S.cols.contains x)).length "")⟩).cols
      = S.cols ++ E.cols.filter (fun x => !S.cols.contains x) :=
    foldl_mapping_cols E ucol _ _ (fun x hx => List.mem_append_right _ hx)
  have hred : writeExcelIncremental convertTime today F filename (some S) true (some E) =
      Except.ok ⟨filename, (preserveCustomColumns S E).rows.length, 0, none,
        preserveCustomColumns S E⟩ := by
    simp [writeExcelIncremental, hcols, hSne,
      ensureCreatedDate_of_mem convertTime today S hScd, hnochange]
  refine ⟨_, hred, rfl, ?_, ?_⟩
  · show c ∈ (preserveCustomColumns S E).cols
    rw [hpres, hfoldcols]
    exact List.mem_append_right _ hcmem
  · show (preserveCustomColumns S E).getCol c = _
    rw [hpres, hgetcol]

/-- C6 witness: the §8 tamper-preservation scenario (Notes="VIP" on
id="001", empty elsewhere), evaluated concretely. -/
theorem c6_custom_column_reattached_witness :
    ∃ res, writeExcelIncremental (fun s => s) "2025-10-13"
        ⟨["id", "name"], [["001", "Alice"], ["002", "Bob"], ["003", "Carol"]]⟩ "acme.xlsx"
        (some ⟨["id", "name", "created_date"],
          [["001", "Alice", "2025-10-01"], ["002", "Bob", "2025-10-01"],
           ["003", "Carol", "2025-10-12"]]⟩) true
        (some ⟨["id", "name", "created_date", "Notes"],
          [["001", "Alice", "2025-10-01", "VIP"], ["002", "Bob", "2025-10-01", ""],
           ["003", "Carol", "2025-10-12", ""]]⟩) =
        Except.ok res ∧
      res.savedBackup = none ∧
      "Notes" ∈ res.excelWritten.cols ∧
      res.excelWritten.getCol "Notes" =
        (⟨["id", "name", "created_date"],
          [["001", "Alice", "2025-10-01"], ["002", "Bob", "2025-10-01"],
           ["003", "Carol", "2025-10-12"]]⟩ : DF).rows.map
          (fun r => (colMapping ⟨["id", "name", "created_date", "Notes"],
            [["001", "Alice", "2025-10-01", "VIP"], ["002", "Bob", "2025-10-01", ""],
             ["003", "Carol", "2025-10-12", ""]]⟩ "id" "Notes" (cellAt r 0)).getD "") :=
  c6_custom_column_reattached (fun s => s) "2025-10-13" "acme.xlsx" "id"
    ⟨["id", "name"], [["001", "Alice"], ["002", "Bob"], ["003", "Carol"]]⟩
    ⟨["id", "name", "created_date"],
      [["001", "Alice", "2025-10-01"], ["002", "Bob", "2025-10-01"],
       ["003", "Carol", "2025-10-12"]]⟩
    ⟨["id", "name", "created_date", "Notes"],
      [["001", "Alice", "2025-10-01", "VIP"], ["002", "Bob", "2025-10-01", ""],
       ["003", "Carol", "2025-10-12", ""]]⟩ "Notes"
    (by decide) (by decide) (by decide) (by decide) (by unfold DF.WF; decide) (by decide)
    (by decide) (by decide) (by decide) (by decide) (by decide) (by decide)

/-- Auxiliary for dict update: replacing in place is found by lookup. -/
theorem find?_map_insert (k : String) (v : MetaEntry) :
    ∀ m : Metadata, m.any (fun p => p.fst == k) = true →
    ((m.map (fun p => if p.fst == k then (k, v) else p)).find?
      (fun p => p.fst == k)) = some (k, v) := by
  intro m
  induction m with
  | nil => intro h; simp at h
  | cons p ps ih =>
    intro h
    simp only [List.map_cons]
    by_cases hp : (p.fst == k) = true
    · rw [if_pos hp]
      rw [List.find?_cons_of_pos]
      simp
    · rw [if_neg hp]
      rw [List.find?_cons_of_neg]
      · apply ih
        simp only [List.any_cons] at h
        rcases Bool.or_eq_true_iff.mp h with h1 | h1
        · exact absurd h1 hp
        · exact h1
      · exact hp

/-- Auxiliary for dict update: an appended fresh entry is found by lookup. -/
theorem find?_append_self (k : String) (v : MetaEntry) :
    ∀ m : Metadata, m.any (fun p => p.fst == k) = false →
    (m ++ [(k, v)]).find? (fun p => p.fst == k) = some (k, v) := by
  intro m
  induction m with
  | nil =>
    intro _
    simp [List.find?]
  | cons p ps ih =>
    intro h
    simp only [List.any_cons, Bool.or_eq_false_iff] at h
    rw [List.cons_append, List.find?_cons_of_neg]
    · exact ih h.2
    · rw [h.1]
      exact Bool.false_ne_true

/-- A Python dict update is observable by the subsequent lookup. -/
theorem dictFind_dictInsert (m : Metadata) (k : String) (v : MetaEntry) :
    dictFind (dictInsert m k v) k = some v := by
  unfold dictFind dictInsert
  by_cases h : m.any (fun p => p.fst == k) = true
  · rw [if_pos h, find?_map_insert k v m h]
    rfl
  · rw [if_neg h, find?_append_self k v m (Bool.eq_false_iff.mpr h)]
    rfl

/-- C7 counterexample: with a previous registry on disk, a failure while
writing leaves the registry file truncated (here to the empty flushed
prefix) and no failure reaches the caller — neither the claimed
write-temp-then-replace atomicity nor a surfaced MetadataWriteFailure. -/
theorem c7_counterexample :
    saveMetadata "new registry" (SaveFault.failWrite "") (some "old registry") =
      (some "", false) ∧
    (some "" : Option String) ≠ some "old registry" := by
  refine ⟨rfl, by decide⟩

/-- C7 amended: `_save_metadata` writes the registry file in place
(`open(..., 'w')` truncates it, then `json.dump` writes) and its `except`
clause logs and swallows every failure, surfacing nothing to the caller; a
failure while dumping can leave the previous on-disk copy truncated or
partially overwritten, and only a failure to open leaves it intact.
Stated through `_update_file_metadata`, the engine's caller of the save. -/
theorem c7_save_in_place_failure_swallowed (md5 : String → String)
    (parse : String → Option Metadata) (serialize : Metadata → String)
    (artifact : Option String) (metadataFile : Option String)
    (filename now w : String) (sheetNames : List String) :
    (∀ fault, (updateFileMetadata md5 parse serialize artifact metadataFile
        filename now sheetNames fault).snd = false) ∧
    (updateFileMetadata md5 parse serialize artifact metadataFile
        filename now sheetNames SaveFault.ok).fst =
      some (serialize (dictInsert (loadMetadata parse metadataFile) filename
        ⟨calculateFileChecksum md5 artifact, now, sheetNames⟩)) ∧
    (updateFileMetadata md5 parse serialize artifact metadataFile
        filename now sheetNames SaveFault.failOpen).fst = metadataFile ∧
    (updateFileMetadata md5 parse serialize artifact metadataFile
        filename now sheetNames (SaveFault.failWrite w)).fst = some w := by
    refine ⟨fun fault => ?_, rfl, rfl, rfl⟩
    cases fault <;> rfl

/-- C8: immediately after `_update_file_metadata` completes successfully
(it is the final commit step of both `write_excel_incremental` and
`force_restore_from_backup`, running after the artifact is on disk), the
checksum stored under the file's name equals the digest of the artifact
bytes on disk, so a subsequent `_is_excel_manipulated` check with no
intermediate external edit reports not-tampered. -/
theorem c8_metadata_digest_current (md5 : String → String)
    (parse : String → Option Metadata) (serialize : Metadata → String)
    (bytes : String) (metadataFile : Option String) (filename now : String)
    (sheetNames : List String)
    (hround : parse (serialize (dictInsert (loadMetadata parse metadataFile) filename
        ⟨md5 bytes, now, sheetNames⟩)) =
      some (dictInsert (loadMetadata parse metadataFile) filename
        ⟨md5 bytes, now, sheetNames⟩)) :
    dictFind (loadMetadata parse
        (updateFileMetadata md5 parse serialize (some bytes) metadataFile
          filename now sheetNames SaveFault.ok).fst) filename =
      some ⟨md5 bytes, now, sheetNames⟩ ∧
    isExcelManipulated md5 parse (some bytes)
        (updateFileMetadata md5 parse serialize (some bytes) metadataFile
          filename now sheetNames SaveFault.ok).fst filename = false := by
  have hfile : (updateFileMetadata md5 parse serialize (some bytes) metadataFile
      filename now sheetNames SaveFault.ok).fst =
      some (serialize (dictInsert (loadMetadata parse metadataFile) filename
        ⟨md5 bytes, now, sheetNames⟩)) := rfl
  have hload : loadMetadata parse (some (serialize (dictInsert
      (loadMetadata parse metadataFile) filename ⟨md5 bytes, now, sheetNames⟩))) =
      dictInsert (loadMetadata parse metadataFile) filename ⟨md5 bytes, now, sheetNames⟩ := by
    show (match parse (serialize (dictInsert (loadMetadata parse metadataFile) filename
        ⟨md5 bytes, now, sheetNames⟩)) with
      | some m => m
      | none => ([] : Metadata)) =
      dictInsert (loadMetadata parse metadataFile) filename ⟨md5 bytes, now, sheetNames⟩
    rw [hround]
  constructor
  · rw [hfile, hload, dictFind_dictInsert]
  · rw [hfile]
    unfold isExcelManipulated
    rw [hload, dictFind_dictInsert]
    simp [calculateFileChecksum]

/-- C8 witness: a concrete hash, codec and registry state. -/
theorem c8_metadata_digest_current_witness :
    dictFind (loadMetadata (fun _ => some [("f", ⟨"b", "t", ["data"]⟩)])
        (updateFileMetadata (fun _ => "b") (fun _ => some [("f", ⟨"b", "t", ["data"]⟩)])
          (fun _ => "enc") (some "art") none "f" "t" ["data"] SaveFault.ok).fst) "f" =
      some ⟨"b", "t", ["data"]⟩ ∧
    isExcelManipulated (fun _ => "b") (fun _ => some [("f", ⟨"b", "t", ["data"]⟩)])
        (some "art")
        (updateFileMetadata (fun _ => "b") (fun _ => some [("f", ⟨"b", "t", ["data"]⟩)])
          (fun _ => "enc") (some "art") none "f" "t" ["data"] SaveFault.ok).fst "f" = false :=
  c8_metadata_digest_current (fun _ => "b") (fun _ => some [("f", ⟨"b", "t", ["data"]⟩)])
    (fun _ => "enc") "art" none "f" "t" ["data"] (by decide)

/-- C10: the tamper check reports not-tampered whenever the artifact file
is absent or the registry has no entry for the file name; a missing or
unparsable registry file is downgraded to the empty registry, so after
metadata loss tampering is never flagged; and with the tamper flag false
`write_excel_incremental` ignores the artifact's contents entirely, so
custom-column preservation is silently skipped on the next reconcile. -/
theorem c10_tamper_check_defaults_false (md5 : String → String)
    (parse : String → Option Metadata) (metadataFile : Option String)
    (filename corrupt : String)
    (hnoentry : dictFind (loadMetadata parse metadataFile) filename = none)
    (hcorrupt : parse corrupt = none) :
    isExcelManipulated md5 parse none metadataFile filename = false ∧
    (∀ bytes, isExcelManipulated md5 parse (some bytes) metadataFile filename = false) ∧
    loadMetadata parse none = [] ∧
    loadMetadata parse (some corrupt) = [] ∧
    (∀ (convertTime : String → String) (today fname : String) (df : DF)
      (cb : Option DF) (E : DF),
      writeExcelIncremental convertTime today df fname cb false (some E) =
        writeExcelIncremental convertTime today df fname cb false none) := by
  refine ⟨rfl, ?_, rfl, ?_, ?_⟩
  · intro bytes
    unfold isExcelManipulated
    rw [hnoentry]
  · show (match parse corrupt with | some m => m | none => ([] : Metadata)) = []
    rw [hcorrupt]
  · intro convertTime today fname df cb E
    rfl

/-- C10 witness: a corrupt registry file (unparsable) and a file with no
entry, evaluated concretely. -/
theorem c10_tamper_check_defaults_false_witness :
    isExcelManipulated (fun s => s) (fun _ => none) none (some "garbage") "f" = false ∧
    (∀ bytes, isExcelManipulated (fun s => s) (fun _ => none) (some bytes)
      (some "garbage") "f" = false) ∧
    loadMetadata (fun _ => none) none = [] ∧
    loadMetadata (fun _ => none) (some "garbage") = [] ∧
    (∀ (convertTime : String → String) (today fname : String) (df : DF)
      (cb : Option DF) (E : DF),
      writeExcelIncremental convertTime today df fname cb false (some E) =
        writeExcelIncremental convertTime today df fname cb false none) :=
  c10_tamper_check_defaults_false (fun s => s) (fun _ => none) (some "garbage") "f" "garbage"
    (by decide) (by decide)

end VerraRelo
